import Mathlib

/-!
Shallow embedding of the scene-manager core of the repository
(src/engine/core/inc/scene_man.hpp, src/engine/parsers/inc/scene_parser.hpp).

Modelling conventions:
* C++ raw non-owning pointers into the name-keyed registries are modelled as
  the registry keys themselves (`String`); a null pointer is `Option.none`.
* The registries `std::unordered_map<std::string, T>` are modelled as
  association lists `List (String × T)` whose insert overwrites an existing
  key in place and appends a fresh key at the end.
* Opaque graphics-device handles (GFX::Effect, GFX::Buffer,
  GFX::PipelineState, GFX::CommandBuffer) are modelled as a `Bool` validity
  flag: `true` means a live device object is held.
* `glm::vec4` world positions are carried as four integer components; no
  claim inspects their values, only whether they are copied through.
* The regular-expression engine used for actor selection is external to the
  core; it is abstracted as a caller-supplied total matcher
  `String → String → Bool` (pattern, name).
* Method bodies of SceneMan, Mesh and the Model/Mesh constructors live in a
  translation unit that is not part of the repository snapshot; those are
  modelled from the spec and say so in their doc comments.  Everything else
  follows the header text.
-/

/-- Four-component position vector (glm::vec4); components carried opaquely. -/
structure Vec4 where
  x : Int
  y : Int
  z : Int
  w : Int
deriving DecidableEq

/-- struct Effect: shader names plus the compiled device effect handle. -/
structure Effect where
  frag_shader_name : String
  vert_shader_name : String
  gfx_effect : Bool
deriving DecidableEq

/-- class Mesh: CPU-side vertex/index data plus device buffer handles.
`vertices_`/`indices_` are `none` when the corresponding `char*` is null. -/
structure Mesh where
  num_vertices_ : Nat
  stride_ : Nat
  num_indices_ : Nat
  num_indices_bytes_ : Nat
  vertices_ : Option (List Nat)
  indices_ : Option (List Nat)
  vertex_buffer_ : Bool
  index_buffer_ : Bool
  local_data_active_ : Bool
deriving DecidableEq

/-- struct Model: a mesh count plus the owned mesh array
(`Mesh* mesh_array_`; the null pointer is the empty list). -/
structure Model where
  number_of_meshes_ : Nat
  mesh_array_ : List Mesh
deriving DecidableEq

/-- struct PhysicsBody. -/
structure PhysicsBody where
  position : Vec4
deriving DecidableEq

/-- struct Actor: a body plus non-owning model/effect references
(registry keys; null pointers are `none`). -/
structure Actor where
  body : PhysicsBody
  model_ptr : Option String
  effect_ptr : Option String
deriving DecidableEq

/-- `Actor():model_ptr(nullptr),effect_ptr(nullptr){}` — the default
constructor nulls both references (header, inline). -/
def Actor.mkDefault : Actor :=
  { body := ⟨⟨0, 0, 0, 0⟩⟩, model_ptr := none, effect_ptr := none }

/-- struct Pipeline: non-owning (Effect, RenderPass) reference pair plus the
compiled device pipeline-state handle. -/
structure Pipeline where
  effect_ptr : String
  render_pass_ptr : String
  gfx_pipeline : Bool
deriving DecidableEq

/-- struct Draw: non-owning (Actor, Pipeline) reference pair.  The pipeline
reference carries the referenced pipeline value: the pipeline collection is
deduplicated, so the value determines the pointed-to element. -/
structure Draw where
  actor_ptr : Option String
  pipeline_ptr : Option Pipeline
deriving DecidableEq

/-- `Draw():actor_ptr(nullptr),pipeline_ptr(nullptr){}` — the default
constructor nulls both references (header, inline). -/
def Draw.mkDefault : Draw :=
  { actor_ptr := none, pipeline_ptr := none }

/-- struct CommandBuffer: device handle plus the ordered draw list. -/
structure CommandBuffer where
  cb : Bool
  draws : List Draw
deriving DecidableEq

/-- struct RenderPass (pixel formats carried as the parsed strings). -/
structure RenderPass where
  actor_regex : String
  actor_ptrs : List String
  sample_count : Nat
  colour_formats : List String
  depth_stencil_formats : String
  command_buffers : List CommandBuffer
deriving DecidableEq

/-- struct ParsedEffect (scene_parser.hpp). -/
structure ParsedEffect where
  name : String
  uniform_block_names : List String
  vert_shader_name : String
  frag_shader_name : String
deriving DecidableEq

/-- struct ParsedActor (scene_parser.hpp). -/
structure ParsedActor where
  name : String
  attribute_block_names : List String
  effect_name : String
  model_name : String
  world_position : Vec4
deriving DecidableEq

/-- struct ParsedRenderPass (scene_parser.hpp). -/
structure ParsedRenderPass where
  name : String
  actor_regex : String
  colour_formats : List String
  depth_stencil_formats : String
deriving DecidableEq

/-- The flat output of the external scene-description reader: the three
public descriptor vectors of SceneParser. -/
structure ParsedScene where
  effects : List ParsedEffect
  actors : List ParsedActor
  render_passes : List ParsedRenderPass
deriving DecidableEq

/-- Modelled from the spec: the value constructor Mesh(vertices,
num_vertices, stride, indices, num_indices, num_indices_bytes) — body not in
the snapshot — stores the CPU-side data; GPU buffers are invalid until a
successful upload (spec §3). -/
def Mesh.mkLoaded (vertices : List Nat) (num_vertices stride : Nat)
    (indices : List Nat) (num_indices num_indices_bytes : Nat) : Mesh :=
  { num_vertices_ := num_vertices, stride_ := stride,
    num_indices_ := num_indices, num_indices_bytes_ := num_indices_bytes,
    vertices_ := some vertices, indices_ := some indices,
    vertex_buffer_ := false, index_buffer_ := false,
    local_data_active_ := true }

/-- Modelled from the spec: body of Mesh::InitializeGFX is not in the
snapshot.  Uploads the CPU-side buffers to the device; returns the updated
mesh and the success flag.  The upload succeeds exactly when CPU-side data
is present to upload; on success the device buffers become valid. -/
def Mesh.InitializeGFX (m : Mesh) : Mesh × Bool :=
  if m.local_data_active_ then
    ({ m with vertex_buffer_ := true, index_buffer_ := true }, true)
  else
    (m, false)

/-- Modelled from the spec: body of Mesh::ReleaseLocalData is not in the
snapshot.  Frees the CPU-side buffers only; device buffers untouched. -/
def Mesh.ReleaseLocalData (m : Mesh) : Mesh :=
  { m with vertices_ := none, indices_ := none, local_data_active_ := false }

/-- Modelled from the spec: body of Mesh::ReleaseGFXData is not in the
snapshot.  Destroys the device buffers. -/
def Mesh.ReleaseGFXData (m : Mesh) : Mesh :=
  { m with vertex_buffer_ := false, index_buffer_ := false }

/-- Modelled from the spec: body of Mesh::ReleaseData is not in the
snapshot.  Full teardown: releases both CPU-side and device data. -/
def Mesh.ReleaseData (m : Mesh) : Mesh :=
  Mesh.ReleaseLocalData (Mesh.ReleaseGFXData m)

/-- The public Mesh operations, for stating trace properties. -/
inductive MeshOp where
  | initGFX
  | releaseLocal
  | releaseAll
deriving DecidableEq

/-- Apply one public Mesh operation. -/
def Mesh.applyOp (m : Mesh) : MeshOp → Mesh
  | .initGFX => (Mesh.InitializeGFX m).1
  | .releaseLocal => Mesh.ReleaseLocalData m
  | .releaseAll => Mesh.ReleaseData m

/-- Run a sequence of public Mesh operations. -/
def Mesh.runOps (m : Mesh) (ops : List MeshOp) : Mesh :=
  ops.foldl Mesh.applyOp m

/-- `void set_number_of_meshes(unsigned int number_of_meshes)
{number_of_meshes_=number_of_meshes;}` (header, inline): sets the stored
count only. -/
def Model.set_number_of_meshes (m : Model) (number_of_meshes : Nat) : Model :=
  { m with number_of_meshes_ := number_of_meshes }

/-- `unsigned int number_of_meshes(){return number_of_meshes_;}`
(header, inline). -/
def Model.number_of_meshes (m : Model) : Nat :=
  m.number_of_meshes_

/-- `void set_mesh_array(Mesh* mesh_array){delete[] mesh_array_;
mesh_array_=mesh_array;}` (header, inline): deletes the previously held
array first, then stores the new one.  The second component of the result is
the array that was freed. -/
def Model.set_mesh_array (m : Model) (mesh_array : List Mesh) :
    Model × List Mesh :=
  ({ m with mesh_array_ := mesh_array }, m.mesh_array_)

/-- `Mesh* mesh_array(){return mesh_array_;}` (header, inline). -/
def Model.mesh_array (m : Model) : List Mesh :=
  m.mesh_array_

/-- The public Model mutators, for stating sequence properties. -/
inductive ModelOp where
  | setCount (n : Nat)
  | setArray (arr : List Mesh)
deriving DecidableEq

/-- Apply one public Model mutator. -/
def Model.applyOp (m : Model) : ModelOp → Model
  | .setCount n => Model.set_number_of_meshes m n
  | .setArray arr => (Model.set_mesh_array m arr).1

/-- Run a sequence of public Model mutators. -/
def Model.runOps (m : Model) (ops : List ModelOp) : Model :=
  ops.foldl Model.applyOp m

/-- The spec's Model invariant: the stored count equals the length of the
stored mesh array. -/
def Model.lengthInv (m : Model) : Prop :=
  m.number_of_meshes_ = m.mesh_array_.length

instance (m : Model) : Decidable (Model.lengthInv m) := by
  unfold Model.lengthInv; infer_instance

/-- enum SceneMan::Stage (header values). -/
def Stage.EFFECTS : Nat := 1
def Stage.ACTORS : Nat := 2
def Stage.MODELS : Nat := 4
def Stage.RENDER_PASSES : Nat := 8
def Stage.PIPELINES : Nat := 16
def Stage.COMMAND_BUFFERS : Nat := 32
def Stage.ALL_LOADED : Nat :=
  Stage.EFFECTS ||| Stage.ACTORS ||| Stage.MODELS |||
  Stage.RENDER_PASSES ||| Stage.PIPELINES
def Stage.ALL_BAKED : Nat :=
  Stage.EFFECTS ||| Stage.PIPELINES ||| Stage.COMMAND_BUFFERS

/-- class SceneMan: lifecycle bitmasks, the four name-keyed registries, and
the pipeline collection. -/
structure SceneMan where
  loaded_bitflags_ : Nat
  baked_bitflags_ : Nat
  render_passes_ : List (String × RenderPass)
  effects_ : List (String × Effect)
  models_ : List (String × Model)
  actors_ : List (String × Actor)
  pipelines_ : List Pipeline
deriving DecidableEq

/-- `SceneMan():loaded_bitflags_(0),baked_bitflags_(0){}` with the member
containers default-empty (header, inline). -/
def SceneMan.init : SceneMan :=
  { loaded_bitflags_ := 0, baked_bitflags_ := 0, render_passes_ := [],
    effects_ := [], models_ := [], actors_ := [], pipelines_ := [] }

/-- Registry lookup: first entry with the given key (unordered_map::find). -/
def lookupAL {α : Type} (l : List (String × α)) (k : String) : Option α :=
  match l with
  | [] => none
  | (k', v) :: rest => if k' = k then some v else lookupAL rest k

/-- Registry insert (unordered_map element access/insert): overwrite an
existing key in place, append a fresh key; a stored entry's identity (its
key) never changes under further insertion. -/
def insertAL {α : Type} (l : List (String × α)) (k : String) (v : α) :
    List (String × α) :=
  match l with
  | [] => [(k, v)]
  | (k', v') :: rest =>
    if k' = k then (k, v) :: rest else (k', v') :: insertAL rest k v

deriving instance DecidableEq for Except

/-- Load-stage error taxonomy (spec §7: reference errors are fatal). -/
inductive LoadError where
  | reference_error (name : String)
deriving DecidableEq

/-- Bake-stage error taxonomy (spec §7: sequencing errors are fatal). -/
inductive BakeError where
  | sequencing_error
deriving DecidableEq

/-- Modelled from the spec: body of SceneMan::LoadEffects is not in the
snapshot.  Instantiates an Effect per descriptor (name, shader identifiers),
device handle not yet compiled, and sets the EFFECTS loaded bit. -/
def SceneMan.LoadEffects (st : SceneMan) (pes : List ParsedEffect) : SceneMan :=
  { st with
    effects_ := pes.foldl
      (fun es pe => insertAL es pe.name
        { frag_shader_name := pe.frag_shader_name,
          vert_shader_name := pe.vert_shader_name, gfx_effect := false })
      st.effects_,
    loaded_bitflags_ := st.loaded_bitflags_ ||| Stage.EFFECTS }

/-- Modelled from the spec: model resource loading is an external
resource-loading concern, invoked per actor's model reference; the external
loader is abstracted as `mdlLoader`.  Ensures the named Model is in the
registry when the loader can supply it. -/
def SceneMan.EnsureModel (mdlLoader : String → Option Model) (st : SceneMan)
    (mn : String) : SceneMan :=
  match lookupAL st.models_ mn with
  | some _ => st
  | none =>
    match mdlLoader mn with
    | some mdl => { st with models_ := insertAL st.models_ mn mdl }
    | none => st

/-- Modelled from the spec: per-actor step of SceneMan::LoadActors (body not
in the snapshot).  Resolves the actor's named effect/model references against
entities present in the registry; a reference to an undeclared name is a
fatal Load error (spec §4.1). -/
def SceneMan.LoadActor (mdlLoader : String → Option Model) (st : SceneMan)
    (pa : ParsedActor) : Except LoadError SceneMan :=
  match lookupAL st.effects_ pa.effect_name with
  | none => .error (.reference_error pa.effect_name)
  | some _ =>
    match lookupAL (SceneMan.EnsureModel mdlLoader st pa.model_name).models_
        pa.model_name with
    | none => .error (.reference_error pa.model_name)
    | some _ =>
      .ok { SceneMan.EnsureModel mdlLoader st pa.model_name with
            actors_ := insertAL
              (SceneMan.EnsureModel mdlLoader st pa.model_name).actors_ pa.name
              { body := ⟨pa.world_position⟩,
                model_ptr := some pa.model_name,
                effect_ptr := some pa.effect_name } }

/-- Modelled from the spec: body of SceneMan::LoadActors is not in the
snapshot.  Processes the actor descriptors in order and, on success, sets the
ACTORS and MODELS loaded bits. -/
def SceneMan.LoadActors (mdlLoader : String → Option Model) (st : SceneMan) :
    List ParsedActor → Except LoadError SceneMan
  | [] => .ok { st with
      loaded_bitflags_ := st.loaded_bitflags_ ||| Stage.ACTORS ||| Stage.MODELS }
  | pa :: rest =>
    match SceneMan.LoadActor mdlLoader st pa with
    | .error e => .error e
    | .ok st2 => SceneMan.LoadActors mdlLoader st2 rest

/-- Modelled from the spec: body of SceneMan::LoadRenderPasses is not in the
snapshot.  Stores selection rule and target configuration; actor membership
is not yet resolved (spec §4.1); sets the RENDER_PASSES loaded bit. -/
def SceneMan.LoadRenderPasses (st : SceneMan)
    (prs : List ParsedRenderPass) : SceneMan :=
  { st with
    render_passes_ := prs.foldl
      (fun rps pr => insertAL rps pr.name
        { actor_regex := pr.actor_regex, actor_ptrs := [], sample_count := 1,
          colour_formats := pr.colour_formats,
          depth_stencil_formats := pr.depth_stencil_formats,
          command_buffers := [] })
      st.render_passes_,
    loaded_bitflags_ := st.loaded_bitflags_ ||| Stage.RENDER_PASSES }

/-- Modelled from the spec: body of SceneMan::Load is not in the snapshot.
Strict phase order Effects → Actors/Models → RenderPasses (spec §4.1/§4.4);
the parsed scene stands for the external reader's output for the named
scene file. -/
def SceneMan.Load (mdlLoader : String → Option Model) (st : SceneMan)
    (ps : ParsedScene) : Except LoadError SceneMan :=
  match SceneMan.LoadActors mdlLoader (SceneMan.LoadEffects st ps.effects)
      ps.actors with
  | .error e => .error e
  | .ok st2 => .ok (SceneMan.LoadRenderPasses st2 ps.render_passes)

/-- Modelled from the spec: the actor-selection matching used by render
passes and by GetActorPtrs — names of the registry actors whose name the
pattern accepts, in registry order. -/
def MatchActors (reMatch : String → String → Bool)
    (actors : List (String × Actor)) (pattern : String) : List String :=
  (actors.filter (fun p => reMatch pattern p.1)).map Prod.fst

/-- Modelled from the spec: body of SceneMan::GetActorPtrs is not in the
snapshot.  Performs the same name-pattern matching used internally by render
passes and returns references to all matching Actors without mutating
state. -/
def SceneMan.GetActorPtrs (reMatch : String → String → Bool) (st : SceneMan)
    (regex_string : String) : List String :=
  MatchActors reMatch st.actors_ regex_string

/-- Does a pipeline hold exactly this (Effect, RenderPass) reference pair?
(identity-equality of both references, spec §4.2). -/
def pipeMatch (en rpn : String) (p : Pipeline) : Bool :=
  p.effect_ptr == en && p.render_pass_ptr == rpn

/-- Modelled from the spec: body of SceneMan::FindPipeline is not in the
snapshot.  Looks up an existing Pipeline by identity-equality of both
references; `none` is the null pointer. -/
def FindPipeline (ps : List Pipeline) (en rpn : String) : Option Pipeline :=
  ps.find? (pipeMatch en rpn)

/-- Modelled from the spec: body of SceneMan::BuildPipeline is not in the
snapshot.  Looks up an existing Pipeline for the pair before creating a new
one (mandatory deduplication); creation compiles the device pipeline-state
object (spec §4.2). -/
def BuildPipeline (en rpn : String) (ps : List Pipeline) : List Pipeline :=
  match FindPipeline ps en rpn with
  | some _ => ps
  | none => ps ++ [{ effect_ptr := en, render_pass_ptr := rpn,
                     gfx_pipeline := true }]

/-- The effect reference of the named registry actor (null-propagating). -/
def effectOf (actors : List (String × Actor)) (an : String) : Option String :=
  (lookupAL actors an).bind (fun a => a.effect_ptr)

/-- The effects referenced by a pass's matched actors, in actor order. -/
def refEffects (actors : List (String × Actor)) (rp : RenderPass) :
    List String :=
  rp.actor_ptrs.filterMap (effectOf actors)

/-- One pass's contribution to SceneMan::BuildPipelines: at most one new
Pipeline per distinct referenced Effect. -/
def buildForPass (rpn : String) (ens : List String) (ps : List Pipeline) :
    List Pipeline :=
  ens.foldl (fun acc en => BuildPipeline en rpn acc) ps

/-- Modelled from the spec: body of SceneMan::BuildPipelines is not in the
snapshot.  For every RenderPass and every Effect referenced by one of its
matched Actors, build (with deduplication) the (Effect, RenderPass)
Pipeline. -/
def BuildPipelines (actors : List (String × Actor))
    (passes : List (String × RenderPass)) (ps : List Pipeline) :
    List Pipeline :=
  passes.foldl
    (fun acc x => buildForPass x.1 (refEffects actors x.2) acc) ps

/-- Modelled from the spec: actor-membership resolution (spec §4.2) —
for every RenderPass, recompute its matched actor list by pattern-matching
against all loaded Actor names. -/
def SceneMan.ResolveActors (reMatch : String → String → Bool)
    (st : SceneMan) : SceneMan :=
  { st with
    render_passes_ := st.render_passes_.map
      (fun x => (x.1,
        { x.2 with actor_ptrs := MatchActors reMatch st.actors_ x.2.actor_regex })) }

/-- Modelled from the spec: body of SceneMan::BuildCommandBuffers is not in
the snapshot.  For each matched Actor, in order, construct a Draw referencing
the Actor and the Pipeline for (Actor's Effect, this RenderPass), appending
to the pass's command buffer, which is then recorded on the device. -/
def BuildCommandBuffers (actors : List (String × Actor))
    (ps : List Pipeline) (rpn : String) (rp : RenderPass) : RenderPass :=
  { rp with
    command_buffers :=
      [{ cb := true,
         draws := rp.actor_ptrs.map (fun an =>
           { actor_ptr := some an,
             pipeline_ptr :=
               (effectOf actors an).bind (fun en => FindPipeline ps en rpn) }) }] }

/-- Modelled from the spec: SceneMan::BakeEffects (body not in the snapshot)
compiles each effect's device handle and sets the EFFECTS baked bit. -/
def SceneMan.BakeEffects (st : SceneMan) : SceneMan :=
  { st with
    effects_ := st.effects_.map (fun e => (e.1, { e.2 with gfx_effect := true })),
    baked_bitflags_ := st.baked_bitflags_ ||| Stage.EFFECTS }

/-- Modelled from the spec: SceneMan::BakePipelines (body not in the
snapshot) resolves each pass's actor membership, builds the deduplicated
pipeline collection, sets the PIPELINES loaded bit (the pipeline collection
now exists, completing ALL_LOADED) and the PIPELINES baked bit. -/
def SceneMan.BakePipelines (reMatch : String → String → Bool)
    (st : SceneMan) : SceneMan :=
  let st1 := SceneMan.ResolveActors reMatch st
  { st1 with
    pipelines_ := BuildPipelines st1.actors_ st1.render_passes_ st1.pipelines_,
    loaded_bitflags_ := st1.loaded_bitflags_ ||| Stage.PIPELINES,
    baked_bitflags_ := st1.baked_bitflags_ ||| Stage.PIPELINES }

/-- Modelled from the spec: SceneMan::BakeCommandBuffers (body not in the
snapshot) builds each pass's command buffers from its matched actors and
sets the COMMAND_BUFFERS baked bit. -/
def SceneMan.BakeCommandBuffers (st : SceneMan) : SceneMan :=
  { st with
    render_passes_ := st.render_passes_.map
      (fun x => (x.1, BuildCommandBuffers st.actors_ st.pipelines_ x.1 x.2)),
    baked_bitflags_ := st.baked_bitflags_ ||| Stage.COMMAND_BUFFERS }

/-- Modelled from the spec: the load phases `Bake` requires to be complete —
the spec names effects, actors, models and render passes (§4.2); the
PIPELINES loaded bit of the header's ALL_LOADED constant is set by the bake
itself when the pipeline collection is built. -/
def requiredLoadPhases : Nat :=
  Stage.EFFECTS ||| Stage.ACTORS ||| Stage.MODELS ||| Stage.RENDER_PASSES

/-- Modelled from the spec: body of SceneMan::Bake is not in the snapshot.
Requires the load phases to be complete (violation is a fatal sequencing
error with no partial execution, spec §7), then BakeEffects → BakePipelines
→ BakeCommandBuffers (spec §4.4). -/
def SceneMan.Bake (reMatch : String → String → Bool) (st : SceneMan) :
    Except BakeError SceneMan :=
  if st.loaded_bitflags_ &&& requiredLoadPhases = requiredLoadPhases then
    .ok (SceneMan.BakeCommandBuffers
          (SceneMan.BakePipelines reMatch (SceneMan.BakeEffects st)))
  else
    .error .sequencing_error

/-- Number of pipelines in a collection holding exactly this
(Effect, RenderPass) reference pair. -/
def countPipe (ps : List Pipeline) (en rpn : String) : Nat :=
  ps.countP (pipeMatch en rpn)

/-- A pipeline for the pair is present in the collection. -/
def HasPipeline (ps : List Pipeline) (en rpn : String) : Prop :=
  ∃ p ∈ ps, pipeMatch en rpn p = true

/-- No two pipelines in the collection share a reference pair. -/
def PairsDistinct (ps : List Pipeline) : Prop :=
  ∀ en rpn, countPipe ps en rpn ≤ 1

/-- Number of draws in one command buffer referencing the named actor. -/
def countDrawsFor (cbuf : CommandBuffer) (an : String) : Nat :=
  cbuf.draws.countP (fun d => d.actor_ptr == some an)

/-- Number of draws referencing the named actor, summed over a pass's
command buffers. -/
def passDrawCount (rp : RenderPass) (an : String) : Nat :=
  (rp.command_buffers.map (fun cbuf => countDrawsFor cbuf an)).sum

/-- Concrete matcher for witnesses: the pattern "all" matches every name,
otherwise exact-name matching. -/
def reMatchW : String → String → Bool :=
  fun pattern n => pattern == "all" || pattern == n

/-- Concrete external model loader for witnesses: every model name resolves
to an empty model resource. -/
def mdlLoaderW : String → Option Model :=
  fun _ => some { number_of_meshes_ := 0, mesh_array_ := [] }

/-- Concrete scene for witnesses (the spec's Scenario B: two actors sharing
one effect in one render pass). -/
def sceneW : ParsedScene :=
  { effects := [{ name := "lit", uniform_block_names := [],
                  vert_shader_name := "v", frag_shader_name := "f" }],
    actors :=
      [{ name := "a1", attribute_block_names := [], effect_name := "lit",
         model_name := "cube", world_position := ⟨0, 0, 0, 1⟩ },
       { name := "a2", attribute_block_names := [], effect_name := "lit",
         model_name := "cube", world_position := ⟨1, 0, 0, 1⟩ }],
    render_passes :=
      [{ name := "main", actor_regex := "all",
         colour_formats := ["bgra8"], depth_stencil_formats := "d32" }] }

/-- Concrete bad scene for witnesses (the spec's Scenario C: an actor
references an effect name absent from the registry). -/
def sceneBadW : ParsedScene :=
  { effects := [{ name := "lit", uniform_block_names := [],
                  vert_shader_name := "v", frag_shader_name := "f" }],
    actors :=
      [{ name := "a1", attribute_block_names := [], effect_name := "ghost",
         model_name := "cube", world_position := ⟨0, 0, 0, 1⟩ }],
    render_passes := [] }

/-- The dangling-reference actor descriptor of the bad witness scene. -/
def paBadW : ParsedActor :=
  { name := "a1", attribute_block_names := [], effect_name := "ghost",
    model_name := "cube", world_position := ⟨0, 0, 0, 1⟩ }

/-- The state after loading the witness scene from a fresh scene manager. -/
def loadedW : SceneMan :=
  match SceneMan.Load mdlLoaderW SceneMan.init sceneW with
  | .ok s => s
  | .error _ => SceneMan.init

/-- The state after baking the loaded witness scene. -/
def bakedW : SceneMan :=
  match SceneMan.Bake reMatchW loadedW with
  | .ok s => s
  | .error _ => SceneMan.init

/-- Fallback pass value for total projections out of the witness state. -/
def emptyPassW : RenderPass :=
  { actor_regex := "", actor_ptrs := [], sample_count := 1,
    colour_formats := [], depth_stencil_formats := "", command_buffers := [] }

/-- The baked witness render pass. -/
def rpW : RenderPass :=
  match lookupAL bakedW.render_passes_ "main" with
  | some rp => rp
  | none => emptyPassW

/-- The baked witness pass's command buffer. -/
def cbufW : CommandBuffer :=
  rpW.command_buffers.headD { cb := false, draws := [] }

/-- The first draw of the baked witness command buffer. -/
def drawW : Draw :=
  cbufW.draws.headD Draw.mkDefault

/-- Claim C3: for every scene state whose loaded-phase bitmask is missing at
least one of the load phases Bake requires (effects, actors, models, render
passes), calling Bake fails immediately with a sequencing error; no bake
phase executes and no Pipeline is created. -/
theorem C3_bake_requires_loaded_phases (reMatch : String → String → Bool)
    (st : SceneMan)
    (h : st.loaded_bitflags_ &&& requiredLoadPhases ≠ requiredLoadPhases) :
    SceneMan.Bake reMatch st = .error .sequencing_error := by
  unfold SceneMan.Bake
  simp [h]

/-- Witness for C3: a fresh scene manager (no phase loaded) is rejected by
Bake with a sequencing error. -/
theorem C3_witness :
    SceneMan.Bake reMatchW SceneMan.init = .error .sequencing_error :=
  C3_bake_requires_loaded_phases reMatchW SceneMan.init (by decide)

/-- Counterexample to claim C5 as stated: the Model setters are independent,
so a sequence consisting of the single public operation
`set_number_of_meshes(5)` leaves the stored count different from the stored
mesh-array length. -/
theorem C5_counterexample :
    ¬ Model.lengthInv
        (Model.runOps { number_of_meshes_ := 0, mesh_array_ := [] }
          [ModelOp.setCount 5]) := by
  decide

/-- Claim C5 (amended): setting a new mesh array frees exactly the
previously held array, and does so before storing the new one; the two
setters do not themselves enforce the count/length invariant, but updating
the count to `n` and then installing an array of length `n` re-establishes
it. -/
theorem C5_model_set_mesh_array (m : Model) (arr : List Mesh) (n : Nat)
    (h : arr.length = n) :
    (Model.set_mesh_array m arr).2 = m.mesh_array_
    ∧ (Model.set_mesh_array m arr).1.mesh_array_ = arr
    ∧ Model.lengthInv ((Model.set_number_of_meshes m n).set_mesh_array arr).1 := by
  refine ⟨rfl, rfl, ?_⟩
  unfold Model.lengthInv Model.set_number_of_meshes Model.set_mesh_array
  simpa using h.symm

/-- Witness for C5: the amended statement at a concrete model, count and
array. -/
theorem C5_witness :
    (Model.set_mesh_array { number_of_meshes_ := 0, mesh_array_ := [] } []).2 = []
    ∧ (Model.set_mesh_array { number_of_meshes_ := 0, mesh_array_ := [] } []).1.mesh_array_ = []
    ∧ Model.lengthInv ((Model.set_number_of_meshes { number_of_meshes_ := 0, mesh_array_ := [] } 0).set_mesh_array []).1 :=
  C5_model_set_mesh_array { number_of_meshes_ := 0, mesh_array_ := [] } [] 0 (by decide)

/-- Sequences of public Mesh operations starting from invalid device buffers
only reach a state with a valid vertex buffer through an upload call. -/
theorem mesh_gfx_needs_init (ops : List MeshOp) :
    ∀ m : Mesh, m.vertex_buffer_ = false →
      (Mesh.runOps m ops).vertex_buffer_ = true → MeshOp.initGFX ∈ ops := by
  induction ops with
  | nil =>
    intro m h0 h1
    unfold Mesh.runOps at h1
    simp at h1
    rw [h0] at h1
    cases h1
  | cons op rest ih =>
    intro m h0 h1
    cases op with
    | initGFX => exact List.mem_cons_self _ _
    | releaseLocal =>
      refine List.mem_cons_of_mem _ (ih (Mesh.applyOp m .releaseLocal) ?_ h1)
      simpa [Mesh.applyOp, Mesh.ReleaseLocalData] using h0
    | releaseAll =>
      refine List.mem_cons_of_mem _ (ih (Mesh.applyOp m .releaseAll) ?_ h1)
      simp [Mesh.applyOp, Mesh.ReleaseData, Mesh.ReleaseLocalData,
        Mesh.ReleaseGFXData]

/-- Claim C6: a freshly constructed Mesh has invalid device buffers; after a
successful upload, releasing the CPU-side data leaves both device buffers
valid while the CPU data is gone; releasing all data invalidates both sides;
and no sequence of public operations from a fresh mesh reaches a valid
device buffer without an upload call. -/
theorem C6_mesh_two_phase_release :
    (∀ v nv s i ni nib,
      (Mesh.mkLoaded v nv s i ni nib).vertex_buffer_ = false
      ∧ (Mesh.mkLoaded v nv s i ni nib).index_buffer_ = false)
    ∧ (∀ m : Mesh, (Mesh.InitializeGFX m).2 = true →
        ((Mesh.InitializeGFX m).1.ReleaseLocalData.vertex_buffer_ = true
         ∧ (Mesh.InitializeGFX m).1.ReleaseLocalData.index_buffer_ = true
         ∧ (Mesh.InitializeGFX m).1.ReleaseLocalData.local_data_active_ = false))
    ∧ (∀ m : Mesh,
        (Mesh.ReleaseData m).vertex_buffer_ = false
        ∧ (Mesh.ReleaseData m).index_buffer_ = false
        ∧ (Mesh.ReleaseData m).local_data_active_ = false)
    ∧ (∀ (v : List Nat) (nv s : Nat) (i : List Nat) (ni nib : Nat)
         (ops : List MeshOp),
        (Mesh.runOps (Mesh.mkLoaded v nv s i ni nib) ops).vertex_buffer_ = true →
        MeshOp.initGFX ∈ ops) := by
  refine ⟨?_, ?_, ?_, ?_⟩
  · intro v nv s i ni nib
    exact ⟨rfl, rfl⟩
  · intro m h
    unfold Mesh.InitializeGFX at h ⊢
    by_cases hl : m.local_data_active_
    · simp [hl, Mesh.ReleaseLocalData]
    · simp [hl] at h
  · intro m
    simp [Mesh.ReleaseData, Mesh.ReleaseLocalData, Mesh.ReleaseGFXData]
  · intro v nv s i ni nib ops h
    exact mesh_gfx_needs_init ops _ rfl h

/-- Witness for C6: upload then CPU-side release on a concrete mesh keeps
the device buffers valid with the CPU data gone. -/
theorem C6_witness :
    ((Mesh.InitializeGFX (Mesh.mkLoaded [7] 1 4 [0] 1 4)).1.ReleaseLocalData.vertex_buffer_ = true
     ∧ (Mesh.InitializeGFX (Mesh.mkLoaded [7] 1 4 [0] 1 4)).1.ReleaseLocalData.index_buffer_ = true
     ∧ (Mesh.InitializeGFX (Mesh.mkLoaded [7] 1 4 [0] 1 4)).1.ReleaseLocalData.local_data_active_ = false) :=
  C6_mesh_two_phase_release.2.1 (Mesh.mkLoaded [7] 1 4 [0] 1 4) (by decide)

/-- Claim C7: GetActorPtrs returns exactly the actors whose name the pattern
matches — it performs the very matching render passes use internally, takes
the scene state as read-only input, and two calls on the same state with the
same pattern return the same list in the same order. -/
theorem C7_get_actor_ptrs (reMatch : String → String → Bool) (st : SceneMan)
    (pattern : String) :
    (∀ an, an ∈ SceneMan.GetActorPtrs reMatch st pattern ↔
       ∃ a, (an, a) ∈ st.actors_ ∧ reMatch pattern an = true)
    ∧ SceneMan.GetActorPtrs reMatch st pattern =
        MatchActors reMatch st.actors_ pattern
    ∧ SceneMan.GetActorPtrs reMatch st pattern =
        SceneMan.GetActorPtrs reMatch st pattern := by
  refine ⟨?_, rfl, rfl⟩
  intro an
  unfold SceneMan.GetActorPtrs MatchActors
  constructor
  · intro h
    rcases List.mem_map.mp h with ⟨p, hp, rfl⟩
    rcases List.mem_filter.mp hp with ⟨hmem, hq⟩
    exact ⟨p.2, hmem, hq⟩
  · rintro ⟨a, hmem, hq⟩
    exact List.mem_map.mpr ⟨(an, a), List.mem_filter.mpr ⟨hmem, hq⟩, rfl⟩

/-- A freshly built pipeline matches its own reference pair. -/
theorem pipeMatch_self (en rpn : String) :
    pipeMatch en rpn { effect_ptr := en, render_pass_ptr := rpn,
                       gfx_pipeline := true } = true := by
  simp [pipeMatch]

/-- A pipeline matching a pair has exactly that pair of references. -/
theorem pipeMatch_elim {en rpn : String} {p : Pipeline}
    (h : pipeMatch en rpn p = true) :
    p.effect_ptr = en ∧ p.render_pass_ptr = rpn := by
  unfold pipeMatch at h
  rcases Bool.and_eq_true_iff.mp h with ⟨h1, h2⟩
  exact ⟨eq_of_beq h1, eq_of_beq h2⟩

/-- BuildPipeline establishes the presence of its own pair. -/
theorem hasPipeline_buildPipeline_self (en rpn : String)
    (ps : List Pipeline) : HasPipeline (BuildPipeline en rpn ps) en rpn := by
  unfold BuildPipeline FindPipeline
  cases hf : ps.find? (pipeMatch en rpn) with
  | some p =>
    exact ⟨p, List.mem_of_find?_eq_some hf, List.find?_some hf⟩
  | none =>
    refine ⟨_, List.mem_append_right ps (List.mem_singleton_self _),
      pipeMatch_self en rpn⟩

/-- BuildPipeline never removes a pipeline: pair presence is monotone. -/
theorem hasPipeline_buildPipeline_mono {ps : List Pipeline}
    {en rpn : String} (en' rpn' : String)
    (h : HasPipeline ps en rpn) :
    HasPipeline (BuildPipeline en' rpn' ps) en rpn := by
  rcases h with ⟨p, hp, hm⟩
  unfold BuildPipeline
  cases FindPipeline ps en' rpn' with
  | some _ => exact ⟨p, hp, hm⟩
  | none => exact ⟨p, List.mem_append_left _ hp, hm⟩

/-- Pair presence is monotone through a pass's pipeline build. -/
theorem hasPipeline_buildForPass_mono {en rpn : String} (rpn' : String)
    (ens : List String) (ps : List Pipeline)
    (h : HasPipeline ps en rpn) :
    HasPipeline (buildForPass rpn' ens ps) en rpn := by
  induction ens generalizing ps with
  | nil => exact h
  | cons e rest ih =>
    exact ih (BuildPipeline e rpn' ps) (hasPipeline_buildPipeline_mono e rpn' h)

/-- A pass's pipeline build establishes every referenced pair. -/
theorem hasPipeline_buildForPass_self {en : String} (rpn : String)
    (ens : List String) :
    ∀ ps : List Pipeline, en ∈ ens →
      HasPipeline (buildForPass rpn ens ps) en rpn := by
  induction ens with
  | nil => intro ps h; cases h
  | cons e rest ih =>
    intro ps h
    rcases List.mem_cons.mp h with rfl | hmem
    · exact hasPipeline_buildForPass_mono rpn rest _
        (hasPipeline_buildPipeline_self en rpn ps)
    · exact ih _ hmem

/-- Pair presence is monotone through the whole pipeline build. -/
theorem hasPipeline_buildPipelines_mono {en rpn : String}
    (actors : List (String × Actor)) (passes : List (String × RenderPass))
    (ps : List Pipeline) (h : HasPipeline ps en rpn) :
    HasPipeline (BuildPipelines actors passes ps) en rpn := by
  induction passes generalizing ps with
  | nil => exact h
  | cons x rest ih =>
    exact ih _ (hasPipeline_buildForPass_mono x.1 (refEffects actors x.2) ps h)

/-- The pipeline build is exhaustive: for every listed pass and every effect
referenced by its matched actors, the pair is present afterwards. -/
theorem hasPipeline_buildPipelines_self {rpn : String} {rp : RenderPass}
    {en : String} (actors : List (String × Actor))
    (passes : List (String × RenderPass)) (hen : en ∈ refEffects actors rp) :
    ∀ ps : List Pipeline, (rpn, rp) ∈ passes →
      HasPipeline (BuildPipelines actors passes ps) en rpn := by
  induction passes with
  | nil => intro ps hmem; cases hmem
  | cons x rest ih =>
    intro ps hmem
    rcases List.mem_cons.mp hmem with heq | hmem'
    · rcases heq with rfl
      exact hasPipeline_buildPipelines_mono actors rest _
        (hasPipeline_buildForPass_self rpn (refEffects actors rp) ps hen)
    · exact ih _ hmem'

/-- BuildPipeline preserves pair-distinctness of the collection. -/
theorem pairsDistinct_buildPipeline {ps : List Pipeline} (en rpn : String)
    (h : PairsDistinct ps) : PairsDistinct (BuildPipeline en rpn ps) := by
  intro en2 rpn2
  unfold BuildPipeline
  cases hf : FindPipeline ps en rpn with
  | some _ => exact h en2 rpn2
  | none =>
    unfold countPipe
    rw [List.countP_append]
    by_cases hm : pipeMatch en2 rpn2
        { effect_ptr := en, render_pass_ptr := rpn, gfx_pipeline := true } = true
    · have hpair : en = en2 ∧ rpn = rpn2 := by
        simpa [pipeMatch] using hm
      rcases hpair with ⟨rfl, rfl⟩
      have h0 : List.countP (pipeMatch en rpn) ps = 0 := by
        refine List.countP_eq_zero.mpr ?_
        intro p hp
        have hnone := List.find?_eq_none.mp hf p hp
        simpa using hnone
      rw [h0]
      simp [hm]
    · have h1 : List.countP (pipeMatch en2 rpn2)
          [{ effect_ptr := en, render_pass_ptr := rpn, gfx_pipeline := true }] = 0 := by
        simp [hm]
      rw [h1]
      simpa using h en2 rpn2

/-- Pair-distinctness is preserved through a pass's pipeline build. -/
theorem pairsDistinct_buildForPass (rpn : String) (ens : List String)
    (ps : List Pipeline) (h : PairsDistinct ps) :
    PairsDistinct (buildForPass rpn ens ps) := by
  induction ens generalizing ps with
  | nil => exact h
  | cons e rest ih => exact ih _ (pairsDistinct_buildPipeline e rpn h)

/-- Pair-distinctness is preserved through the whole pipeline build. -/
theorem pairsDistinct_buildPipelines (actors : List (String × Actor))
    (passes : List (String × RenderPass)) (ps : List Pipeline)
    (h : PairsDistinct ps) :
    PairsDistinct (BuildPipelines actors passes ps) := by
  induction passes generalizing ps with
  | nil => exact h
  | cons x rest ih =>
    exact ih _ (pairsDistinct_buildForPass x.1 (refEffects actors x.2) ps h)

/-- In a pair-distinct collection, a present pair is counted exactly once. -/
theorem countPipe_eq_one {ps : List Pipeline} {en rpn : String}
    (hd : PairsDistinct ps) (hh : HasPipeline ps en rpn) :
    countPipe ps en rpn = 1 := by
  rcases hh with ⟨p, hp, hm⟩
  have hpos : 0 < countPipe ps en rpn :=
    List.countP_pos_iff.mpr ⟨p, hp, hm⟩
  have hle := hd en rpn
  omega

/-- A successful Bake is the three bake phases in order. -/
theorem bake_ok_eq {reMatch : String → String → Bool} {st st' : SceneMan}
    (hok : SceneMan.Bake reMatch st = .ok st') :
    st' = SceneMan.BakeCommandBuffers
            (SceneMan.BakePipelines reMatch (SceneMan.BakeEffects st)) := by
  unfold SceneMan.Bake at hok
  split at hok
  · injection hok with h
    exact h.symm
  · exact Except.noConfusion hok

theorem bakeEffects_actors (st : SceneMan) :
    (SceneMan.BakeEffects st).actors_ = st.actors_ := rfl

theorem bakeEffects_passes (st : SceneMan) :
    (SceneMan.BakeEffects st).render_passes_ = st.render_passes_ := rfl

theorem bakeEffects_pipelines (st : SceneMan) :
    (SceneMan.BakeEffects st).pipelines_ = st.pipelines_ := rfl

theorem resolveActors_actors (reMatch : String → String → Bool)
    (st : SceneMan) :
    (SceneMan.ResolveActors reMatch st).actors_ = st.actors_ := rfl

theorem resolveActors_passes (reMatch : String → String → Bool)
    (st : SceneMan) :
    (SceneMan.ResolveActors reMatch st).render_passes_ =
      st.render_passes_.map (fun x => (x.1,
        { x.2 with actor_ptrs := MatchActors reMatch st.actors_ x.2.actor_regex })) := rfl

theorem bakePipelines_actors (reMatch : String → String → Bool)
    (st : SceneMan) :
    (SceneMan.BakePipelines reMatch st).actors_ = st.actors_ := rfl

theorem bakePipelines_passes (reMatch : String → String → Bool)
    (st : SceneMan) :
    (SceneMan.BakePipelines reMatch st).render_passes_ =
      (SceneMan.ResolveActors reMatch st).render_passes_ := rfl

theorem bakePipelines_pipelines (reMatch : String → String → Bool)
    (st : SceneMan) :
    (SceneMan.BakePipelines reMatch st).pipelines_ =
      BuildPipelines st.actors_
        (SceneMan.ResolveActors reMatch st).render_passes_ st.pipelines_ := rfl

theorem bakeCommandBuffers_actors (st : SceneMan) :
    (SceneMan.BakeCommandBuffers st).actors_ = st.actors_ := rfl

theorem bakeCommandBuffers_pipelines (st : SceneMan) :
    (SceneMan.BakeCommandBuffers st).pipelines_ = st.pipelines_ := rfl

theorem bakeCommandBuffers_passes (st : SceneMan) :
    (SceneMan.BakeCommandBuffers st).render_passes_ =
      st.render_passes_.map (fun x => (x.1,
        BuildCommandBuffers st.actors_ st.pipelines_ x.1 x.2)) := rfl

theorem buildCommandBuffers_actor_ptrs (actors : List (String × Actor))
    (ps : List Pipeline) (rpn : String) (rp : RenderPass) :
    (BuildCommandBuffers actors ps rpn rp).actor_ptrs = rp.actor_ptrs := rfl

theorem buildCommandBuffers_cbs (actors : List (String × Actor))
    (ps : List Pipeline) (rpn : String) (rp : RenderPass) :
    (BuildCommandBuffers actors ps rpn rp).command_buffers =
      [{ cb := true,
         draws := rp.actor_ptrs.map (fun an =>
           { actor_ptr := some an,
             pipeline_ptr :=
               (effectOf actors an).bind (fun en => FindPipeline ps en rpn) }) }] := rfl

/-- The empty pipeline collection is pair-distinct. -/
theorem pairsDistinct_nil : PairsDistinct [] := by
  intro en rpn
  simp [countPipe]

/-- Claim C1: after a successful Bake starting from an empty pipeline
collection, every render pass and every effect referenced by one of its
matched actors is served by exactly one pipeline holding that
(Effect, RenderPass) reference pair — none missing, no duplicates; in
particular two actors sharing an effect within one pass share one
pipeline. -/
theorem C1_pipeline_dedup (reMatch : String → String → Bool)
    (st st' : SceneMan) (hps : st.pipelines_ = [])
    (hok : SceneMan.Bake reMatch st = .ok st') :
    ∀ rpn rp, (rpn, rp) ∈ st'.render_passes_ →
      ∀ en ∈ refEffects st'.actors_ rp,
        countPipe st'.pipelines_ en rpn = 1 := by
  have hst' := bake_ok_eq hok
  subst hst'
  intro rpn rp hmem en hen
  rw [bakeCommandBuffers_passes, bakePipelines_passes, bakePipelines_actors,
    bakePipelines_pipelines, bakeEffects_actors, bakeEffects_pipelines] at hmem
  rcases List.mem_map.mp hmem with ⟨x, hx, hfx⟩
  cases hfx
  show countPipe
    (BuildPipelines st.actors_
      (SceneMan.ResolveActors reMatch (SceneMan.BakeEffects st)).render_passes_
      st.pipelines_) en x.1 = 1
  rw [hps]
  have hen' : en ∈ refEffects st.actors_ x.2 := hen
  exact countPipe_eq_one
    (pairsDistinct_buildPipelines st.actors_ _ [] pairsDistinct_nil)
    (hasPipeline_buildPipelines_self st.actors_ _ hen' [] hx)

/-- Witness for C1: in the concrete two-actors-one-effect scene, the baked
state has exactly one pipeline for the pair ("lit", "main"). -/
theorem C1_witness : countPipe bakedW.pipelines_ "lit" "main" = 1 :=
  C1_pipeline_dedup reMatchW loadedW bakedW (by decide) (by decide)
    "main" rpW (by decide) "lit" (by decide)

/-- Counting draws for one actor over the built draw list counts the actor's
occurrences in the matched-actor list. -/
theorem countDraws_map (actors : List (String × Actor)) (ps : List Pipeline)
    (rpn : String) (l : List String) (an : String) :
    (l.map (fun an2 =>
      ({ actor_ptr := some an2,
         pipeline_ptr :=
           (effectOf actors an2).bind (fun en => FindPipeline ps en rpn) } : Draw))).countP
        (fun d => d.actor_ptr == some an) = l.count an := by
  rw [List.countP_map]
  have hcong : ∀ a ∈ l,
      (((fun d => d.actor_ptr == some an) ∘ (fun an2 =>
        ({ actor_ptr := some an2,
           pipeline_ptr :=
             (effectOf actors an2).bind (fun en => FindPipeline ps en rpn) } : Draw))) a = true)
      ↔ ((a == an) = true) := by
    intro a _
    simp [Function.comp]
  rw [List.countP_congr hcong]
  rfl

/-- Claim C2: after a successful Bake of a scene whose actor registry has
distinct names, every render pass draws each of its matched actors exactly
once: exactly one Draw referencing that actor appears among the pass's
command buffers. -/
theorem C2_one_draw_per_matched_actor (reMatch : String → String → Bool)
    (st st' : SceneMan) (hnd : (st.actors_.map Prod.fst).Nodup)
    (hok : SceneMan.Bake reMatch st = .ok st') :
    ∀ rpn rp, (rpn, rp) ∈ st'.render_passes_ →
      ∀ an ∈ rp.actor_ptrs, passDrawCount rp an = 1 := by
  have hst' := bake_ok_eq hok
  subst hst'
  intro rpn rp hmem an han
  rw [bakeCommandBuffers_passes, bakePipelines_passes, bakePipelines_actors,
    bakePipelines_pipelines, bakeEffects_actors, bakeEffects_pipelines] at hmem
  rcases List.mem_map.mp hmem with ⟨x, hx, hfx⟩
  cases hfx
  have han' : an ∈ x.2.actor_ptrs := han
  show ((BuildCommandBuffers st.actors_
      (BuildPipelines st.actors_
        (SceneMan.ResolveActors reMatch (SceneMan.BakeEffects st)).render_passes_
        st.pipelines_) x.1 x.2).command_buffers.map
      (fun cbuf => countDrawsFor cbuf an)).sum = 1
  rw [buildCommandBuffers_cbs]
  simp only [List.map_cons, List.map_nil, List.sum_cons, List.sum_nil,
    Nat.add_zero]
  unfold countDrawsFor
  rw [countDraws_map]
  rw [resolveActors_passes, bakeEffects_passes, bakeEffects_actors] at hx
  rcases List.mem_map.mp hx with ⟨y, _, hfy⟩
  cases hfy
  have hnd2 : (MatchActors reMatch st.actors_ y.2.actor_regex).Nodup :=
    hnd.sublist ((List.filter_sublist _).map Prod.fst)
  exact List.count_eq_one_of_mem hnd2 han'

/-- Witness for C2: in the concrete scene, actor "a1" is drawn exactly once
by the "main" pass. -/
theorem C2_witness : passDrawCount rpW "a1" = 1 :=
  C2_one_draw_per_matched_actor reMatchW loadedW bakedW (by decide)
    (by decide) "main" rpW (by decide) "a1" (by decide)

/-- Claim C9: within every command buffer of a baked pass, the draws appear
exactly in matched-actor processing order (the order the builder appended
them), and re-running Bake from a freshly re-Loaded identical scene yields
the identical result, hence identical draw orderings. -/
theorem C9_draw_order_deterministic (reMatch : String → String → Bool)
    (st st' : SceneMan) (hok : SceneMan.Bake reMatch st = .ok st') :
    (∀ rpn rp, (rpn, rp) ∈ st'.render_passes_ →
      ∀ cbuf ∈ rp.command_buffers,
        cbuf.draws.map (fun d => d.actor_ptr) = rp.actor_ptrs.map some)
    ∧ (∀ (mdlLoader : String → Option Model) (ps : ParsedScene)
         (s1 s2 : SceneMan),
        SceneMan.Load mdlLoader SceneMan.init ps = .ok s1 →
        SceneMan.Load mdlLoader SceneMan.init ps = .ok s2 →
        SceneMan.Bake reMatch s1 = SceneMan.Bake reMatch s2) := by
  constructor
  · have hst' := bake_ok_eq hok
    subst hst'
    intro rpn rp hmem cbuf hcb
    rw [bakeCommandBuffers_passes] at hmem
    rcases List.mem_map.mp hmem with ⟨x, _, hfx⟩
    cases hfx
    rw [buildCommandBuffers_cbs] at hcb
    rcases List.mem_singleton.mp hcb with rfl
    rw [buildCommandBuffers_actor_ptrs]
    rw [List.map_map]
    rfl
  · intro mdlLoader ps s1 s2 h1 h2
    rw [h1] at h2
    injection h2 with h
    rw [h]

/-- Witness for C9: the concrete baked pass's command buffer lists its draws
in matched-actor order. -/
theorem C9_witness :
    cbufW.draws.map (fun d => d.actor_ptr) = rpW.actor_ptrs.map some :=
  (C9_draw_order_deterministic reMatchW loadedW bakedW (by decide)).1
    "main" rpW (by decide) cbufW (by decide)

/-- A successful registry lookup returns a stored entry. -/
theorem lookupAL_mem {α : Type} {l : List (String × α)} {k : String} {v : α}
    (h : lookupAL l k = some v) : (k, v) ∈ l := by
  induction l with
  | nil => cases h
  | cons hd tl ih =>
    unfold lookupAL at h
    rcases hd with ⟨k1, v1⟩
    by_cases hk : k1 = k
    · subst hk
      simp at h
      subst h
      exact List.mem_cons_self _ _
    · simp [hk] at h
      exact List.mem_cons_of_mem _ (ih h)

/-- Every key present in the registry looks up to some value. -/
theorem exists_lookupAL_of_mem_keys {α : Type} {l : List (String × α)}
    {k : String} (h : k ∈ l.map Prod.fst) : ∃ v, lookupAL l k = some v := by
  induction l with
  | nil => cases h
  | cons hd tl ih =>
    rcases hd with ⟨k1, v1⟩
    rcases List.mem_cons.mp h with heq | hmem
    · refine ⟨v1, ?_⟩
      unfold lookupAL
      simp [heq]
    · by_cases hk : k1 = k
      · exact ⟨v1, by unfold lookupAL; simp [hk]⟩
      · rcases ih hmem with ⟨v, hv⟩
        exact ⟨v, by unfold lookupAL; simp [hk, hv]⟩

/-- An entry of the registry after insertion is an old entry or the new
one. -/
theorem mem_insertAL {α : Type} {l : List (String × α)} {k n : String}
    {v a : α} (h : (n, a) ∈ insertAL l k v) : (n, a) ∈ l ∨ (n, a) = (k, v) := by
  induction l with
  | nil =>
    unfold insertAL at h
    exact Or.inr (List.mem_singleton.mp h)
  | cons hd tl ih =>
    rcases hd with ⟨k1, v1⟩
    unfold insertAL at h
    by_cases hk : k1 = k
    · simp only [hk, if_pos rfl] at h
      rcases List.mem_cons.mp h with heq | hmem
      · exact Or.inr heq
      · exact Or.inl (List.mem_cons_of_mem _ hmem)
    · simp only [if_neg hk] at h
      rcases List.mem_cons.mp h with heq | hmem
      · exact Or.inl (heq ▸ List.mem_cons_self _ _)
      · rcases ih hmem with h1 | h2
        · exact Or.inl (List.mem_cons_of_mem _ h1)
        · exact Or.inr h2

/-- Looking up a different key is unaffected by an insertion. -/
theorem lookupAL_insertAL_ne {α : Type} {l : List (String × α)}
    {k k2 : String} (v : α) (h : k ≠ k2) :
    lookupAL (insertAL l k v) k2 = lookupAL l k2 := by
  induction l with
  | nil =>
    unfold insertAL lookupAL
    simp [h]
    rfl
  | cons hd tl ih =>
    rcases hd with ⟨k1, v1⟩
    unfold insertAL
    by_cases hk : k1 = k
    · subst hk
      unfold lookupAL
      simp [h]
    · simp only [if_neg hk]
      unfold lookupAL
      by_cases hk2 : k1 = k2
      · simp [hk2]
      · simp [hk2, ih]

/-- EnsureModel touches only the model registry. -/
theorem ensureModel_actors (mdlLoader : String → Option Model)
    (st : SceneMan) (mn : String) :
    (SceneMan.EnsureModel mdlLoader st mn).actors_ = st.actors_ := by
  unfold SceneMan.EnsureModel
  cases lookupAL st.models_ mn with
  | some _ => rfl
  | none =>
    cases mdlLoader mn with
    | some _ => rfl
    | none => rfl

/-- EnsureModel touches only the model registry (effects view). -/
theorem ensureModel_effects (mdlLoader : String → Option Model)
    (st : SceneMan) (mn : String) :
    (SceneMan.EnsureModel mdlLoader st mn).effects_ = st.effects_ := by
  unfold SceneMan.EnsureModel
  cases lookupAL st.models_ mn with
  | some _ => rfl
  | none =>
    cases mdlLoader mn with
    | some _ => rfl
    | none => rfl

/-- EnsureModel leaves the lifecycle bitmasks unchanged. -/
theorem ensureModel_baked (mdlLoader : String → Option Model)
    (st : SceneMan) (mn : String) :
    (SceneMan.EnsureModel mdlLoader st mn).baked_bitflags_ = st.baked_bitflags_ := by
  unfold SceneMan.EnsureModel
  cases lookupAL st.models_ mn with
  | some _ => rfl
  | none =>
    cases mdlLoader mn with
    | some _ => rfl
    | none => rfl

/-- A name the loader cannot supply and absent from the model registry is
still absent after EnsureModel runs for any name. -/
theorem ensureModel_preserves_missing (mdlLoader : String → Option Model)
    (st : SceneMan) (mn bad : String)
    (hb : lookupAL st.models_ bad = none) (hl : mdlLoader bad = none) :
    lookupAL (SceneMan.EnsureModel mdlLoader st mn).models_ bad = none := by
  unfold SceneMan.EnsureModel
  cases hx : lookupAL st.models_ mn with
  | some _ => exact hb
  | none =>
    cases hm : mdlLoader mn with
    | some mdl =>
      by_cases hk : mn = bad
      · subst hk
        rw [hm] at hl
        cases hl
      · simpa [lookupAL_insertAL_ne mdl hk] using hb
    | none => exact hb

theorem loadEffects_actors (st : SceneMan) (pes : List ParsedEffect) :
    (SceneMan.LoadEffects st pes).actors_ = st.actors_ := rfl

theorem loadEffects_models (st : SceneMan) (pes : List ParsedEffect) :
    (SceneMan.LoadEffects st pes).models_ = st.models_ := rfl

theorem loadEffects_baked (st : SceneMan) (pes : List ParsedEffect) :
    (SceneMan.LoadEffects st pes).baked_bitflags_ = st.baked_bitflags_ := rfl

theorem loadRenderPasses_actors (st : SceneMan) (prs : List ParsedRenderPass) :
    (SceneMan.LoadRenderPasses st prs).actors_ = st.actors_ := rfl

theorem loadRenderPasses_baked (st : SceneMan) (prs : List ParsedRenderPass) :
    (SceneMan.LoadRenderPasses st prs).baked_bitflags_ = st.baked_bitflags_ := rfl

/-- What a successful per-actor load step did: the actor was inserted with
resolved (non-null) references, the effect registry and baked bitmask are
untouched, and a model name the loader cannot supply stays missing. -/
theorem loadActor_ok_elim (mdlLoader : String → Option Model)
    (st : SceneMan) (pa : ParsedActor) (st2 : SceneMan)
    (h : SceneMan.LoadActor mdlLoader st pa = .ok st2) :
    st2.actors_ = insertAL (SceneMan.EnsureModel mdlLoader st pa.model_name).actors_
        pa.name
        { body := ⟨pa.world_position⟩, model_ptr := some pa.model_name,
          effect_ptr := some pa.effect_name }
    ∧ st2.effects_ = st.effects_
    ∧ st2.baked_bitflags_ = st.baked_bitflags_
    ∧ (∀ bad, lookupAL st.models_ bad = none → mdlLoader bad = none →
        lookupAL st2.models_ bad = none) := by
  unfold SceneMan.LoadActor at h
  split at h
  · exact Except.noConfusion h
  · split at h
    · exact Except.noConfusion h
    · injection h with h3
      subst h3
      refine ⟨rfl, ensureModel_effects mdlLoader st pa.model_name,
        ensureModel_baked mdlLoader st pa.model_name, ?_⟩
      intro bad hb hl
      exact ensureModel_preserves_missing mdlLoader st pa.model_name bad hb hl

/-- A per-actor load step with a dangling effect or model reference fails
with a reference error. -/
theorem loadActor_err_of_bad (mdlLoader : String → Option Model)
    (st : SceneMan) (pa : ParsedActor)
    (hbad : lookupAL st.effects_ pa.effect_name = none
      ∨ (lookupAL st.models_ pa.model_name = none
         ∧ mdlLoader pa.model_name = none)) :
    ∃ n, SceneMan.LoadActor mdlLoader st pa = .error (.reference_error n) := by
  unfold SceneMan.LoadActor
  rcases hbad with h1 | ⟨h2, h3⟩
  · exact ⟨pa.effect_name, by rw [h1]⟩
  · cases h1 : lookupAL st.effects_ pa.effect_name with
    | none => exact ⟨pa.effect_name, rfl⟩
    | some e =>
      refine ⟨pa.model_name, ?_⟩
      have h4 : lookupAL (SceneMan.EnsureModel mdlLoader st pa.model_name).models_
          pa.model_name = none :=
        ensureModel_preserves_missing mdlLoader st pa.model_name pa.model_name h2 h3
      simp only [h1, h4]

/-- A dangling reference anywhere in the actor descriptor list makes the
actor-load phase fail with a reference error. -/
theorem loadActors_err (mdlLoader : String → Option Model)
    (pas : List ParsedActor) :
    ∀ st : SceneMan, ∀ pa ∈ pas,
      (lookupAL st.effects_ pa.effect_name = none
        ∨ (lookupAL st.models_ pa.model_name = none
           ∧ mdlLoader pa.model_name = none)) →
      ∃ n, SceneMan.LoadActors mdlLoader st pas = .error (.reference_error n) := by
  induction pas with
  | nil =>
    intro st pa hmem
    cases hmem
  | cons p rest ih =>
    intro st pa hmem hbad
    unfold SceneMan.LoadActors
    rcases List.mem_cons.mp hmem with rfl | hmem'
    · rcases loadActor_err_of_bad mdlLoader st pa hbad with ⟨n, hn⟩
      exact ⟨n, by rw [hn]⟩
    · cases hstep : SceneMan.LoadActor mdlLoader st p with
      | error e =>
        cases e with
        | reference_error n => exact ⟨n, rfl⟩
      | ok st2 =>
        rcases loadActor_ok_elim mdlLoader st p st2 hstep with ⟨_, heff, _, hmod⟩
        have hbad2 : lookupAL st2.effects_ pa.effect_name = none
            ∨ (lookupAL st2.models_ pa.model_name = none
               ∧ mdlLoader pa.model_name = none) := by
          rcases hbad with h1 | ⟨h2, h3⟩
          · exact Or.inl (by rw [heff]; exact h1)
          · exact Or.inr ⟨hmod pa.model_name h2 h3, h3⟩
        rcases ih st2 pa hmem' hbad2 with ⟨n, hn⟩
        exact ⟨n, hn⟩

/-- What a successful actor-load phase guarantees: the baked bitmask is
untouched, and every stored actor either predates the phase or is one of
the freshly resolved insertions. -/
theorem loadActors_ok_elim (mdlLoader : String → Option Model)
    (pas : List ParsedActor) :
    ∀ st st' : SceneMan, SceneMan.LoadActors mdlLoader st pas = .ok st' →
      st'.baked_bitflags_ = st.baked_bitflags_
      ∧ ∀ P : String × Actor → Prop,
          (∀ x ∈ st.actors_, P x) →
          (∀ pa : ParsedActor,
            P (pa.name, { body := ⟨pa.world_position⟩,
                          model_ptr := some pa.model_name,
                          effect_ptr := some pa.effect_name })) →
          ∀ x ∈ st'.actors_, P x := by
  induction pas with
  | nil =>
    intro st st' h
    unfold SceneMan.LoadActors at h
    injection h with h1
    subst h1
    exact ⟨rfl, fun P hold _ x hx => hold x hx⟩
  | cons p rest ih =>
    intro st st' h
    unfold SceneMan.LoadActors at h
    cases hstep : SceneMan.LoadActor mdlLoader st p with
    | error e =>
      rw [hstep] at h
      exact Except.noConfusion h
    | ok st2 =>
      rw [hstep] at h
      rcases loadActor_ok_elim mdlLoader st p st2 hstep with ⟨hact, _, hbaked, _⟩
      rcases ih st2 st' h with ⟨hb, hp⟩
      refine ⟨by rw [hb, hbaked], ?_⟩
      intro P hold hnew x hx
      refine hp P ?_ hnew x hx
      intro y hy
      rw [hact] at hy
      rcases y with ⟨n, a⟩
      rcases mem_insertAL hy with hold' | hnewy
      · rw [ensureModel_actors] at hold'
        exact hold _ hold'
      · rw [hnewy]
        exact hnew p

/-- What a successful Load guarantees: the baked bitmask is untouched and
every stored actor has resolved (non-null) model and effect references,
provided the pre-existing actors did. -/
theorem load_ok_elim (mdlLoader : String → Option Model) (st : SceneMan)
    (ps : ParsedScene) (st' : SceneMan)
    (h : SceneMan.Load mdlLoader st ps = .ok st')
    (hres : ∀ x ∈ st.actors_, (x : String × Actor).2.effect_ptr ≠ none
        ∧ x.2.model_ptr ≠ none) :
    st'.baked_bitflags_ = st.baked_bitflags_
    ∧ ∀ x ∈ st'.actors_, (x : String × Actor).2.effect_ptr ≠ none
        ∧ x.2.model_ptr ≠ none := by
  unfold SceneMan.Load at h
  cases hla : SceneMan.LoadActors mdlLoader (SceneMan.LoadEffects st ps.effects)
      ps.actors with
  | error e =>
    rw [hla] at h
    exact Except.noConfusion h
  | ok st2 =>
    rw [hla] at h
    injection h with h1
    subst h1
    rcases loadActors_ok_elim mdlLoader ps.actors _ _ hla with ⟨hb, hp⟩
    constructor
    · rw [loadRenderPasses_baked, hb, loadEffects_baked]
    · intro x hx
      rw [loadRenderPasses_actors] at hx
      refine hp (fun x => x.2.effect_ptr ≠ none ∧ x.2.model_ptr ≠ none) ?_ ?_ x hx
      · intro y hy
        rw [loadEffects_actors] at hy
        exact hres y hy
      · intro pa
        exact ⟨Option.some_ne_none _, Option.some_ne_none _⟩

/-- Claim C4: a Load whose actor descriptors name an effect that is absent
from the effect registry at resolution time, or a model that is neither in
the model registry nor obtainable from the external loader, fails with a
fatal reference error; and no successful Load ever touches the baked-phase
bitmask, so no bake phase can have run from a Load. -/
theorem C4_load_dangling_reference (mdlLoader : String → Option Model)
    (st : SceneMan) (ps : ParsedScene) (pa : ParsedActor)
    (hmem : pa ∈ ps.actors)
    (hbad : lookupAL (SceneMan.LoadEffects st ps.effects).effects_
        pa.effect_name = none
      ∨ (lookupAL st.models_ pa.model_name = none
         ∧ mdlLoader pa.model_name = none)) :
    (∃ n, SceneMan.Load mdlLoader st ps = .error (.reference_error n))
    ∧ ∀ (ps2 : ParsedScene) (st' : SceneMan),
        SceneMan.Load mdlLoader st ps2 = .ok st' →
        st'.baked_bitflags_ = st.baked_bitflags_ := by
  constructor
  · have hbad2 : lookupAL (SceneMan.LoadEffects st ps.effects).effects_
        pa.effect_name = none
      ∨ (lookupAL (SceneMan.LoadEffects st ps.effects).models_
           pa.model_name = none
         ∧ mdlLoader pa.model_name = none) := by
      rcases hbad with h1 | ⟨h2, h3⟩
      · exact Or.inl h1
      · exact Or.inr ⟨by rw [loadEffects_models]; exact h2, h3⟩
    rcases loadActors_err mdlLoader ps.actors
      (SceneMan.LoadEffects st ps.effects) pa hmem hbad2 with ⟨n, hn⟩
    refine ⟨n, ?_⟩
    unfold SceneMan.Load
    rw [hn]
  · intro ps2 st' h
    unfold SceneMan.Load at h
    cases hla : SceneMan.LoadActors mdlLoader
        (SceneMan.LoadEffects st ps2.effects) ps2.actors with
    | error e =>
      rw [hla] at h
      exact Except.noConfusion h
    | ok st2 =>
      rw [hla] at h
      injection h with h1
      subst h1
      rcases loadActors_ok_elim mdlLoader ps2.actors _ _ hla with ⟨hb, _⟩
      rw [loadRenderPasses_baked, hb, loadEffects_baked]

/-- Witness for C4: loading the scene whose actor references the undeclared
effect "ghost" fails with a reference error. -/
theorem C4_witness :
    ∃ n, SceneMan.Load mdlLoaderW SceneMan.init sceneBadW =
      .error (.reference_error n) :=
  (C4_load_dangling_reference mdlLoaderW SceneMan.init sceneBadW paBadW
    (by decide) (Or.inl (by decide))).1

/-- Claim C10: a default-constructed Actor has null model and effect
references and a default-constructed Draw has null actor and pipeline
references; the references become non-null exactly through Load's
resolution (every actor stored by a successful Load has non-null
references) and Bake's command-buffer construction (every draw of a baked
pass references an actor and a pipeline). -/
theorem C10_default_null_refs :
    (Actor.mkDefault.model_ptr = none ∧ Actor.mkDefault.effect_ptr = none)
    ∧ (Draw.mkDefault.actor_ptr = none ∧ Draw.mkDefault.pipeline_ptr = none)
    ∧ (∀ (mdlLoader : String → Option Model) (ps : ParsedScene)
         (st : SceneMan),
        SceneMan.Load mdlLoader SceneMan.init ps = .ok st →
        ∀ x ∈ st.actors_, (x : String × Actor).2.model_ptr ≠ none
          ∧ x.2.effect_ptr ≠ none)
    ∧ (∀ (mdlLoader : String → Option Model) (ps : ParsedScene)
         (reMatch : String → String → Bool) (st st' : SceneMan),
        SceneMan.Load mdlLoader SceneMan.init ps = .ok st →
        SceneMan.Bake reMatch st = .ok st' →
        ∀ rpn rp, (rpn, rp) ∈ st'.render_passes_ →
          ∀ cbuf ∈ rp.command_buffers, ∀ d ∈ cbuf.draws,
            d.actor_ptr ≠ none ∧ d.pipeline_ptr ≠ none) := by
  refine ⟨⟨rfl, rfl⟩, ⟨rfl, rfl⟩, ?_, ?_⟩
  · intro mdlLoader ps st hload x hx
    have hres := (load_ok_elim mdlLoader SceneMan.init ps st hload
      (by intro y hy; cases hy)).2
    exact ⟨(hres x hx).2, (hres x hx).1⟩
  · intro mdlLoader ps reMatch st st' hload hbake rpn rp hmem cbuf hcb d hd
    have hres := (load_ok_elim mdlLoader SceneMan.init ps st hload
      (by intro y hy; cases hy)).2
    have hst' := bake_ok_eq hbake
    subst hst'
    rw [bakeCommandBuffers_passes, bakePipelines_passes, bakePipelines_actors,
      bakePipelines_pipelines, bakeEffects_actors, bakeEffects_pipelines] at hmem
    rcases List.mem_map.mp hmem with ⟨x, hx, hfx⟩
    cases hfx
    rw [buildCommandBuffers_cbs] at hcb
    rcases List.mem_singleton.mp hcb with rfl
    rcases List.mem_map.mp hd with ⟨an, han, rfl⟩
    refine ⟨by simp, ?_⟩
    have hx2 := hx
    rw [resolveActors_passes, bakeEffects_passes, bakeEffects_actors] at hx2
    rcases List.mem_map.mp hx2 with ⟨y, hy, hfy⟩
    cases hfy
    have hkey : an ∈ st.actors_.map Prod.fst :=
      ((List.filter_sublist _).map Prod.fst).subset han
    rcases exists_lookupAL_of_mem_keys hkey with ⟨a0, hka⟩
    have hmem0 := lookupAL_mem hka
    have heffne := (hres (an, a0) hmem0).1
    rcases Option.ne_none_iff_exists'.mp heffne with ⟨en, hen⟩
    have heo : effectOf st.actors_ an = some en := by
      unfold effectOf
      rw [hka]
      simpa using hen
    have henr : en ∈ refEffects st.actors_
        { y.2 with actor_ptrs := MatchActors reMatch st.actors_ y.2.actor_regex } :=
      List.mem_filterMap.mpr ⟨an, han, heo⟩
    have hhas := hasPipeline_buildPipelines_self st.actors_
      (SceneMan.ResolveActors reMatch (SceneMan.BakeEffects st)).render_passes_
      henr st.pipelines_ hx
    rcases hhas with ⟨p, hp, hpm⟩
    dsimp only
    rw [heo]
    intro hnone
    rw [Option.some_bind] at hnone
    unfold FindPipeline at hnone
    exact (List.find?_eq_none.mp hnone p hp) hpm

/-- Witness for C10: the first draw of the baked concrete pass references
both an actor and a pipeline. -/
theorem C10_witness : drawW.actor_ptr ≠ none ∧ drawW.pipeline_ptr ≠ none :=
  C10_default_null_refs.2.2.2 mdlLoaderW sceneW reMatchW loadedW bakedW
    (by decide) (by decide) "main" rpW (by decide) cbufW (by decide) drawW
    (by decide)
